import Mathlib

/-!
# Verification of the haven-chat web sender-key / crypto-persistence core

Shallow embedding of `src/lib/crypto-store.ts` (persistence gateway) and of
the sender-key coordinator of `src/lib/crypto.ts` (modelled from the spec,
since only its test file is part of the sources at hand).

Byte buffers are modelled as `List Nat`.  External collaborators (libsodium
primitives, the backup payload codec, IndexedDB transaction outcomes, the
network distribution outcome) are modelled abstractly: the primitives as a
structure of functions together with their contracts, the nondeterministic
outcomes as explicit boolean parameters.
-/

/-- Byte buffers as lists of byte values. -/
abbrev Bytes := List Nat

/-! ## Association-list helpers (model of keyed object stores / Maps) -/

/-- Look up a key in an association list (first match). -/
def lookupA {α β : Type} [DecidableEq α] : List (α × β) → α → Option β
  | [], _ => none
  | (k, v) :: rest, a => if k = a then some v else lookupA rest a

/-- Insert-or-replace (upsert) keyed by `a`. -/
def insertA {α β : Type} [DecidableEq α] : List (α × β) → α → β → List (α × β)
  | [], a, b => [(a, b)]
  | (k, v) :: rest, a, b =>
    if k = a then (a, b) :: rest else (k, v) :: insertA rest a b

/-- Delete the entry keyed by `a` (first match). -/
def eraseA {α β : Type} [DecidableEq α] : List (α × β) → α → List (α × β)
  | [], _ => []
  | (k, v) :: rest, a => if k = a then rest else (k, v) :: eraseA rest a

theorem lookupA_insertA_self {α β : Type} [DecidableEq α]
    (l : List (α × β)) (a : α) (b : β) : lookupA (insertA l a b) a = some b := by
  induction l with
  | nil => simp [insertA, lookupA]
  | cons hd tl ih =>
    obtain ⟨k, v⟩ := hd
    by_cases hk : k = a
    · simp [insertA, hk, lookupA]
    · simp [insertA, hk, lookupA, ih]

/-! ## Abstract libsodium primitives

`crypto_generichash` (BLAKE2b keyed hash) and `crypto_secretbox`
(XSalsa20-Poly1305 authenticated encryption) are external primitives.  They
are modelled as an ideal keyed hash (collision-free) and an ideal
authenticated cipher (decryption succeeds exactly under the encryption key).
-/

/-- `sodium.crypto_secretbox_KEYBYTES` -/
def crypto_secretbox_KEYBYTES : Nat := 32

/-- `sodium.crypto_secretbox_NONCEBYTES` -/
def crypto_secretbox_NONCEBYTES : Nat := 24

/-- Ideal model of the libsodium primitives used by `crypto-store.ts`. -/
structure Sodium where
  crypto_generichash : Nat → Bytes → Bytes → Bytes
  crypto_secretbox_easy : Bytes → Bytes → Bytes → Bytes
  crypto_secretbox_open_easy : Bytes → Bytes → Bytes → Option Bytes
  generichash_length : ∀ c k,
    (crypto_generichash crypto_secretbox_KEYBYTES c k).length = crypto_secretbox_KEYBYTES
  generichash_inj : ∀ c k k',
    crypto_generichash crypto_secretbox_KEYBYTES c k
      = crypto_generichash crypto_secretbox_KEYBYTES c k' → k = k'
  secretbox_roundtrip : ∀ pt n k,
    crypto_secretbox_open_easy (crypto_secretbox_easy pt n k) n k = some pt
  secretbox_wrong_key : ∀ pt n k k', k' ≠ k →
    crypto_secretbox_open_easy (crypto_secretbox_easy pt n k) n k' = none
  secretbox_length : ∀ pt n k,
    (crypto_secretbox_easy pt n k).length = pt.length + 16

/-- Injective encoding of a byte list into one natural number
(used only to build a concrete ideal-primitive instance). -/
def encodeL : Bytes → Nat
  | [] => 0
  | a :: l => Nat.pair a (encodeL l) + 1

theorem encodeL_inj : ∀ {x y : Bytes}, encodeL x = encodeL y → x = y := by
  intro x
  induction x with
  | nil =>
    intro y h
    cases y with
    | nil => rfl
    | cons b l => simp [encodeL] at h
  | cons a l ih =>
    intro y h
    cases y with
    | nil => simp [encodeL] at h
    | cons b m =>
      simp only [encodeL, Nat.succ.injEq] at h
      obtain ⟨h1, h2⟩ := Nat.pair_eq_pair.mp h
      exact congrArg₂ List.cons h1 (ih h2)

theorem drop_replicate_append (n : Nat) (a : Nat) (l : Bytes) :
    (List.replicate n a ++ l).drop n = l := by
  induction n with
  | zero => simp
  | succ m ih => simp [List.replicate_succ, ih]

/-- A concrete instance of the ideal-primitive model (for evaluation). -/
def sodiumModel : Sodium where
  crypto_generichash := fun n _c k => encodeL k :: List.replicate (n - 1) 0
  crypto_secretbox_easy := fun pt _n k => encodeL k :: (List.replicate 15 0 ++ pt)
  crypto_secretbox_open_easy := fun ct _n k =>
    match ct with
    | [] => none
    | t :: rest => if t = encodeL k then some (rest.drop 15) else none
  generichash_length := by intro c k; simp [crypto_secretbox_KEYBYTES]
  generichash_inj := by
    intro c k k' h
    simp only [List.cons.injEq] at h
    exact encodeL_inj h.1
  secretbox_roundtrip := by
    intro pt n k
    simp [drop_replicate_append]
  secretbox_wrong_key := by
    intro pt n k k' hne
    have : encodeL k ≠ encodeL k' := fun h => hne (encodeL_inj h).symm
    simp [this]
  secretbox_length := by
    intro pt n k
    simp

/-! ## Abstract backup payload codec

`buildBackupPayload` / `restoreCryptoFromPayload` live in `backup.ts` and
serialize/restore the full in-memory crypto session state; `crypto-store.ts`
serializes the payload with `JSON.stringify`+`TextEncoder` and parses it back
with `TextDecoder`+`JSON.parse`.  Modelled as an abstract codec over a state
type `σ` and payload type `τ`, whose restore replaces the in-memory state
wholesale, with round-trip contracts. -/
structure BackupCodec (σ τ : Type) where
  buildBackupPayload : σ → τ
  restoreCryptoFromPayload : τ → σ
  stringifyPayload : τ → Bytes
  parsePayload : Bytes → Option τ
  parse_stringify : ∀ p, parsePayload (stringifyPayload p) = some p
  restore_build : ∀ s, restoreCryptoFromPayload (buildBackupPayload s) = s

/-- Trivial concrete codec instance over `Bytes` state (for evaluation). -/
def codecModel : BackupCodec Bytes Bytes where
  buildBackupPayload := id
  restoreCryptoFromPayload := id
  stringifyPayload := id
  parsePayload := some
  parse_stringify := fun _ => rfl
  restore_build := fun _ => rfl

/-! ## Embedding of `src/lib/crypto-store.ts` -/

/-- `KEY_CONTEXT = new TextEncoder().encode("haven-local-crypto-store")` -/
def KEY_CONTEXT : Bytes := "haven-local-crypto-store".toList.map Char.toNat

/-- `deriveStorageKey`: keyed BLAKE2b of the fixed context,
keyed by the identity private key, sized to the secretbox key length. -/
def deriveStorageKey (sod : Sodium) (identityPrivateKey : Bytes) : Bytes :=
  sod.crypto_generichash crypto_secretbox_KEYBYTES KEY_CONTEXT identityPrivateKey

/-- The record `put` into the `sessions` object store (keyPath `userId`). -/
structure EncryptedRecord where
  userId : String
  encrypted : Bytes
  nonce : Bytes
  updatedAt : String
deriving DecidableEq, Repr

/-- In-memory crypto session state (`σ`, opaque) plus the IndexedDB table of
one `EncryptedRecord` per userId. -/
structure World (σ : Type) where
  mem : σ
  db : List (String × EncryptedRecord)

/-- `persistCryptoState(userId, identityPrivateKey)`.

Build the backup payload from the in-memory state, serialize, encrypt under
the derived storage key with a fresh random `nonce` (passed explicitly), then
`put` the record in a readwrite transaction.  `openOk` models whether
`indexedDB.open` succeeds; `txOk` whether the transaction completes.  On
transaction error the code runs `reject(tx.error)`: the returned outcome is
`Except.error` and (the transaction being atomic) the store is unchanged. -/
def persistCryptoState {σ τ : Type} (sod : Sodium) (cod : BackupCodec σ τ)
    (w : World σ) (userId : String) (identityPrivateKey : Bytes)
    (nonce : Bytes) (updatedAt : String) (openOk txOk : Bool) :
    World σ × Except String Unit :=
  let payload := cod.buildBackupPayload w.mem
  let plaintext := cod.stringifyPayload payload
  let key := deriveStorageKey sod identityPrivateKey
  let encrypted := sod.crypto_secretbox_easy plaintext nonce key
  if openOk then
    if txOk then
      ({ w with db := insertA w.db userId ⟨userId, encrypted, nonce, updatedAt⟩ },
        Except.ok ())
    else (w, Except.error "transaction failed")
  else (w, Except.error "open failed")

/-- `loadCryptoState(userId, identityPrivateKey)`.

Fetch the record (`req.onerror` resolves `null`: modelled by `getOk`); if
absent return `false`.  Then decrypt with the re-derived storage key and
parse; any failure in that `try` block returns `false` with the in-memory
state untouched.  On success hand the payload to
`restoreCryptoFromPayload`, which replaces the in-memory state wholesale,
and return `true`.  `openOk` models whether `indexedDB.open` succeeds
(an open failure rejects, before the `try` block). -/
def loadCryptoState {σ τ : Type} (sod : Sodium) (cod : BackupCodec σ τ)
    (w : World σ) (userId : String) (identityPrivateKey : Bytes)
    (openOk getOk : Bool) : World σ × Except String Bool :=
  if openOk then
    match (if getOk then lookupA w.db userId else none) with
    | none => (w, Except.ok false)
    | some record =>
      match sod.crypto_secretbox_open_easy record.encrypted record.nonce
          (deriveStorageKey sod identityPrivateKey) with
      | none => (w, Except.ok false)
      | some plaintext =>
        match cod.parsePayload plaintext with
        | none => (w, Except.ok false)
        | some payload =>
          ({ w with mem := cod.restoreCryptoFromPayload payload }, Except.ok true)
  else (w, Except.error "open failed")

/-- JavaScript truthiness of `string | undefined`:
truthy iff defined and nonempty. -/
def stringTruthy : Option String → Bool
  | some s => decide (s ≠ "")
  | none => false

/-- `clearCryptoStore(userId?)`.

The whole body sits in `try { ... } catch { /* silently fail */ }`, so the
function is total: any open/transaction failure (`openOk`/`txOk` false)
leaves the store unchanged.  `if (userId)` is JS truthiness: a defined
nonempty id deletes that one record, otherwise `clear()` empties the table. -/
def clearCryptoStore {σ : Type} (w : World σ) (userId : Option String)
    (openOk txOk : Bool) : World σ :=
  if openOk && txOk then
    if stringTruthy userId then { w with db := eraseA w.db (userId.getD "") }
    else { w with db := [] }
  else w

/-! ## Sender-key coordinator (`src/lib/crypto.ts`)

Only the test file of `crypto.ts` is among the sources at hand, so the
coordinator itself is modelled from the spec (§3, §4.1, §4.2), consistently
with the behaviour its tests assert.  JavaScript `Uint8Array` object
identity matters for the self-copy claims, so byte buffers live in an
explicit heap (an arena of buffers addressed by allocation index); a
`SenderKeyRef` holds references into that heap. -/

/-- A heap of byte buffers; a reference is an index into the arena. -/
structure Heap where
  bufs : List Bytes
deriving DecidableEq, Repr

/-- Dereference a buffer. -/
def Heap.read (h : Heap) (r : Nat) : Bytes :=
  h.bufs.getD r []

/-- Mutate the buffer behind reference `r` (models in-place
`Uint8Array` mutation such as `senderKey.chainKey[0] = 0xff`). -/
def Heap.write (h : Heap) (r : Nat) (b : Bytes) : Heap :=
  ⟨h.bufs.set r b⟩

/-- Generator output: a sender key by value —
`{ distributionId: 16B, chainKey: 32B, chainIndex }`. -/
structure SenderKey where
  distributionId : Bytes
  chainKey : Bytes
  chainIndex : Nat
deriving DecidableEq, Repr

/-- A stored sender key: buffer fields are heap references. -/
structure SenderKeyRef where
  distributionId : Nat
  chainKey : Nat
  chainIndex : Nat
deriving DecidableEq, Repr

/-- An entry of `receivedSenderKeys`: `{ fromUserId, key }`. -/
structure ReceivedEntry where
  fromUserId : String
  key : SenderKeyRef
deriving DecidableEq, Repr

/-- Modelled from the spec: the `SenderKeyStore` state of `crypto.ts` —
`mySenderKeys` keyed by channelId, `receivedSenderKeys` keyed by the pair
(channelId, distributionId value), `distributedChannels`, plus the buffer
heap. -/
structure CryptoState where
  mySenderKeys : List (String × SenderKeyRef)
  receivedSenderKeys : List ((String × Bytes) × ReceivedEntry)
  distributedChannels : List String
  heap : Heap
deriving DecidableEq, Repr

/-- The fresh-session state (all three structures empty). -/
def initialCryptoState : CryptoState := ⟨[], [], [], ⟨[]⟩⟩

/-- Modelled from the spec: `SenderKeyStore.addReceivedKey` — inserts the
entry keyed by (channelId, distributionId), a no-op if an entry already
exists for that exact pair. -/
def addReceived (st : CryptoState) (k : String × Bytes) (e : ReceivedEntry) :
    CryptoState :=
  if (lookupA st.receivedSenderKeys k).isSome then st
  else { st with receivedSenderKeys := st.receivedSenderKeys ++ [(k, e)] }

/-- Modelled from the spec: `ensureSenderKeyDistributed(channel)` of
`crypto.ts` (§4.2 steps 1–4).  The primitive provider's fresh key is passed
explicitly as `freshKey` (its nondeterminism made explicit); the network
distribution outcome as `distOk`; the local user id as `localUserId`.

1.  Own key present and channel marked distributed: return it, no effects.
2.  No own key: allocate the generated key's buffers on the heap, store the
    key; if a local user id is known, clone both buffers into fresh
    allocations and add the self-copy under (channel, distributionId).
3.  Attempt distribution (outcome `distOk`).
4.  Mark the channel distributed only on success. -/
def ensureSenderKeyDistributed (st : CryptoState) (channel : String)
    (localUserId : Option String) (freshKey : SenderKey) (distOk : Bool) :
    SenderKeyRef × CryptoState :=
  match lookupA st.mySenderKeys channel with
  | some k =>
    if channel ∈ st.distributedChannels then (k, st)
    else if distOk then
      (k, { st with distributedChannels := channel :: st.distributedChannels })
    else (k, st)
  | none =>
    let n := st.heap.bufs.length
    let own : SenderKeyRef := ⟨n, n + 1, freshKey.chainIndex⟩
    let st1 : CryptoState :=
      { st with
        heap := ⟨st.heap.bufs ++ [freshKey.distributionId, freshKey.chainKey]⟩,
        mySenderKeys := insertA st.mySenderKeys channel own }
    let st2 : CryptoState :=
      match localUserId with
      | none => st1
      | some uid =>
        let clone : SenderKeyRef := ⟨n + 2, n + 3, freshKey.chainIndex⟩
        addReceived
          { st1 with
            heap := ⟨st1.heap.bufs ++ [freshKey.distributionId, freshKey.chainKey]⟩ }
          (channel, freshKey.distributionId) ⟨uid, clone⟩
    let st3 : CryptoState :=
      if distOk then
        { st2 with distributedChannels := channel :: st2.distributedChannels }
      else st2
    (own, st3)

/-- Modelled from the spec: `invalidateSenderKey(channel)` — removes the own
key and the distributed flag for the channel; idempotent; does not touch
`receivedSenderKeys`. -/
def invalidateSenderKey (st : CryptoState) (channel : String) : CryptoState :=
  { st with
    mySenderKeys := eraseA st.mySenderKeys channel,
    distributedChannels := st.distributedChannels.filter (fun c => decide (c ≠ channel)) }

/-- Number of received-key entries stored under exactly the given
(channelId, distributionId) key. -/
def countEntriesKeyed (st : CryptoState) (key : String × Bytes) : Nat :=
  (st.receivedSenderKeys.filter (fun e => decide (e.1 = key))).length

/-- Number of self-copy entries for the given channel and user. -/
def countSelfCopies (st : CryptoState) (channel : String) (uid : String) : Nat :=
  (st.receivedSenderKeys.filter
    (fun e => decide (e.1.1 = channel) && decide (e.2.fromUserId = uid))).length

/-! ## Claims about the persistence gateway (`crypto-store.ts`) -/

/-- C2: for every userId `u` and identity private key `K`,
`persistCryptoState(u, K)` followed by `loadCryptoState(u, K)` (all storage
operations succeeding) returns `true` and replaces the in-memory crypto
session state wholesale with the snapshot that existed at persist time. -/
theorem persist_load_roundtrip {σ τ : Type} (sod : Sodium) (cod : BackupCodec σ τ)
    (w : World σ) (u : String) (K nonce : Bytes) (ts : String) :
    (persistCryptoState sod cod w u K nonce ts true true).2 = Except.ok () ∧
    loadCryptoState sod cod (persistCryptoState sod cod w u K nonce ts true true).1
        u K true true
      = ({ (persistCryptoState sod cod w u K nonce ts true true).1 with mem := w.mem },
          Except.ok true) := by
  refine ⟨rfl, ?_⟩
  simp only [persistCryptoState, loadCryptoState, if_true, lookupA_insertA_self,
    sod.secretbox_roundtrip, cod.parse_stringify, cod.restore_build]

/-- C3: with the database open succeeding, every enumerated failure —
no record for the userId, the record-get failing (`getOk = false`),
decryption failing, or deserialization failing — makes `loadCryptoState`
return `false` without throwing and without touching any state, exactly as
if nothing had ever been persisted. -/
theorem loadCryptoState_failure_false {σ τ : Type} (sod : Sodium)
    (cod : BackupCodec σ τ) (w : World σ) (u : String) (K : Bytes) (getOk : Bool)
    (h : (if getOk then lookupA w.db u else none) = none
      ∨ (∃ r, (if getOk then lookupA w.db u else none) = some r ∧
          sod.crypto_secretbox_open_easy r.encrypted r.nonce
            (deriveStorageKey sod K) = none)
      ∨ (∃ r pt, (if getOk then lookupA w.db u else none) = some r ∧
          sod.crypto_secretbox_open_easy r.encrypted r.nonce
            (deriveStorageKey sod K) = some pt ∧
          cod.parsePayload pt = none)) :
    loadCryptoState sod cod w u K true getOk = (w, Except.ok false) := by
  rcases h with h | ⟨r, hr, hopen⟩ | ⟨r, pt, hr, hopen, hparse⟩
  · simp only [loadCryptoState, if_true, h]
  · simp only [loadCryptoState, if_true, hr, hopen]
  · simp only [loadCryptoState, if_true, hr, hopen, hparse]

/-- Witness for C3 at a concrete input (empty store: no record). -/
theorem loadCryptoState_failure_false_w :
    ((if true then lookupA (([] : List (String × EncryptedRecord))) "user-1" else none)
        = none
      ∨ (∃ r, (if true then lookupA ([] : List (String × EncryptedRecord)) "user-1"
            else none) = some r ∧
          sodiumModel.crypto_secretbox_open_easy r.encrypted r.nonce
            (deriveStorageKey sodiumModel [5]) = none)
      ∨ (∃ r pt, (if true then lookupA ([] : List (String × EncryptedRecord)) "user-1"
            else none) = some r ∧
          sodiumModel.crypto_secretbox_open_easy r.encrypted r.nonce
            (deriveStorageKey sodiumModel [5]) = some pt ∧
          codecModel.parsePayload pt = none)) ∧
    loadCryptoState sodiumModel codecModel ⟨([] : Bytes), []⟩ "user-1" [5] true true
      = (⟨([] : Bytes), []⟩, Except.ok false) :=
  ⟨Or.inl rfl,
    loadCryptoState_failure_false sodiumModel codecModel ⟨([] : Bytes), []⟩
      "user-1" [5] true (Or.inl rfl)⟩

/-- C6 (amended): when the write transaction inside `persistCryptoState`
fails, the returned promise rejects — the storage error propagates to the
caller — while the store (hence any prior durable record) and the in-memory
state are left untouched. -/
theorem persistCryptoState_write_failure_propagates {σ τ : Type}
    (sod : Sodium) (cod : BackupCodec σ τ) (w : World σ) (u : String)
    (K nonce : Bytes) (ts : String) :
    persistCryptoState sod cod w u K nonce ts true false
      = (w, Except.error "transaction failed") := rfl

/-- C6 counterexample: at a concrete input with the write transaction
failing, `persistCryptoState` resolves to an error outcome, never to a
silent success — refuting the claim that no exception escapes past the
gateway (`tx.onerror = () => reject(tx.error)` in the source). -/
theorem persistCryptoState_write_failure_cex :
    (persistCryptoState sodiumModel codecModel ⟨([1] : Bytes), []⟩ "user-1"
        [2] [3] "t" true false).2 = Except.error "transaction failed" ∧
    ∀ r : Unit, (persistCryptoState sodiumModel codecModel ⟨([1] : Bytes), []⟩
        "user-1" [2] [3] "t" true false).2 ≠ Except.ok r := by
  refine ⟨rfl, ?_⟩
  intro r h
  simp [persistCryptoState] at h

/-- C7: persisting under key `K1` and loading under a different key `K2`
returns `false` and leaves the in-memory state unmodified (the restore path
is never reached: the result's memory is still the pre-load memory). -/
theorem loadCryptoState_wrong_key_false {σ τ : Type} (sod : Sodium)
    (cod : BackupCodec σ τ) (w : World σ) (u : String)
    (K1 K2 nonce : Bytes) (ts : String) (hne : K1 ≠ K2) :
    loadCryptoState sod cod (persistCryptoState sod cod w u K1 nonce ts true true).1
        u K2 true true
      = ((persistCryptoState sod cod w u K1 nonce ts true true).1, Except.ok false) ∧
    (persistCryptoState sod cod w u K1 nonce ts true true).1.mem = w.mem := by
  have hkey : deriveStorageKey sod K2 ≠ deriveStorageKey sod K1 := by
    intro h
    exact hne (sod.generichash_inj _ _ _ h).symm
  refine ⟨?_, rfl⟩
  simp only [persistCryptoState, loadCryptoState, if_true, lookupA_insertA_self,
    sod.secretbox_wrong_key _ _ _ _ hkey]

/-- Witness for C7 at concrete distinct keys. -/
theorem loadCryptoState_wrong_key_false_w :
    (([0] : Bytes) ≠ [1]) ∧
    (loadCryptoState sodiumModel codecModel
        (persistCryptoState sodiumModel codecModel ⟨([7] : Bytes), []⟩ "user-1"
          [0] [3] "t" true true).1 "user-1" [1] true true
      = ((persistCryptoState sodiumModel codecModel ⟨([7] : Bytes), []⟩ "user-1"
          [0] [3] "t" true true).1, Except.ok false) ∧
    (persistCryptoState sodiumModel codecModel ⟨([7] : Bytes), []⟩ "user-1"
        [0] [3] "t" true true).1.mem = ([7] : Bytes)) :=
  ⟨by decide,
    loadCryptoState_wrong_key_false sodiumModel codecModel ⟨([7] : Bytes), []⟩
      "user-1" [0] [1] [3] "t" (by decide)⟩

/-- C8: `deriveStorageKey` is the keyed hash of the fixed domain-separation
context keyed by the identity private key (hence deterministic: it is a pure
function of that key), its output has the symmetric cipher's key length
(32 bytes), and `persistCryptoState` writes only the record
`{userId, ciphertext, nonce, updatedAt}` to durable storage — neither the
stored nonce (24 bytes) nor the stored ciphertext can be the derived key. -/
theorem deriveStorageKey_spec {σ τ : Type} (sod : Sodium) (cod : BackupCodec σ τ)
    (w : World σ) (u : String) (K nonce : Bytes) (ts : String)
    (hn : nonce.length = crypto_secretbox_NONCEBYTES)
    (hpt : (cod.stringifyPayload (cod.buildBackupPayload w.mem)).length ≠ 16) :
    deriveStorageKey sod K
      = sod.crypto_generichash crypto_secretbox_KEYBYTES KEY_CONTEXT K ∧
    (deriveStorageKey sod K).length = 32 ∧
    lookupA (persistCryptoState sod cod w u K nonce ts true true).1.db u
      = some ⟨u, sod.crypto_secretbox_easy
          (cod.stringifyPayload (cod.buildBackupPayload w.mem)) nonce
          (deriveStorageKey sod K), nonce, ts⟩ ∧
    nonce ≠ deriveStorageKey sod K ∧
    sod.crypto_secretbox_easy (cod.stringifyPayload (cod.buildBackupPayload w.mem))
        nonce (deriveStorageKey sod K) ≠ deriveStorageKey sod K := by
  have hlen : (deriveStorageKey sod K).length = 32 :=
    sod.generichash_length KEY_CONTEXT K
  refine ⟨rfl, hlen, ?_, ?_, ?_⟩
  · simp only [persistCryptoState, if_true, lookupA_insertA_self]
  · intro h
    rw [h, hlen] at hn
    simp [crypto_secretbox_NONCEBYTES] at hn
  · intro h
    have := sod.secretbox_length (cod.stringifyPayload (cod.buildBackupPayload w.mem))
      nonce (deriveStorageKey sod K)
    rw [h, hlen] at this
    omega

/-- Witness for C8 at a concrete input (24-byte nonce, 3-byte payload). -/
theorem deriveStorageKey_spec_w :
    (List.replicate 24 (0 : Nat)).length = crypto_secretbox_NONCEBYTES ∧
    (codecModel.stringifyPayload (codecModel.buildBackupPayload [1, 2, 3])).length ≠ 16 ∧
    (deriveStorageKey sodiumModel [7]).length = 32 :=
  ⟨by decide, by decide,
    (deriveStorageKey_spec sodiumModel codecModel ⟨([1, 2, 3] : Bytes), []⟩ "user-1"
      [7] (List.replicate 24 0) "t" (by decide) (by decide)).2.1⟩

/-- C10 (amended): with storage succeeding, `clearCryptoStore` with a
defined nonempty id deletes exactly that user's record; with no id, or with
the empty-string id (falsy in JavaScript), it deletes all records; and it
never throws — any open/transaction failure is swallowed, leaving the store
unchanged. -/
theorem clearCryptoStore_spec {σ : Type} (w : World σ) (uid : Option String)
    (u : String) (openOk txOk : Bool) (hu : u ≠ "")
    (hfail : openOk = false ∨ txOk = false) :
    clearCryptoStore w (some u) true true = { w with db := eraseA w.db u } ∧
    clearCryptoStore w none true true = { w with db := [] } ∧
    clearCryptoStore w (some "") true true = { w with db := [] } ∧
    clearCryptoStore w uid openOk txOk = w := by
  refine ⟨?_, rfl, rfl, ?_⟩
  · simp [clearCryptoStore, stringTruthy, hu]
  · rcases hfail with h | h <;> simp [clearCryptoStore, h]

/-- Witness for C10's amended statement at concrete inputs. -/
theorem clearCryptoStore_spec_w :
    ("alice" : String) ≠ "" ∧
    (clearCryptoStore (⟨([] : Bytes), [("alice", ⟨"alice", [1], [2], "t"⟩)]⟩ : World Bytes)
        (some "alice") true true
      = { (⟨([] : Bytes), [("alice", ⟨"alice", [1], [2], "t"⟩)]⟩ : World Bytes) with
          db := eraseA [("alice", ⟨"alice", [1], [2], "t"⟩)] "alice" } ∧
    clearCryptoStore (⟨([] : Bytes), [("alice", ⟨"alice", [1], [2], "t"⟩)]⟩ : World Bytes)
        none true true
      = { (⟨([] : Bytes), [("alice", ⟨"alice", [1], [2], "t"⟩)]⟩ : World Bytes) with
          db := [] } ∧
    clearCryptoStore (⟨([] : Bytes), [("alice", ⟨"alice", [1], [2], "t"⟩)]⟩ : World Bytes)
        (some "") true true
      = { (⟨([] : Bytes), [("alice", ⟨"alice", [1], [2], "t"⟩)]⟩ : World Bytes) with
          db := [] } ∧
    clearCryptoStore (⟨([] : Bytes), [("alice", ⟨"alice", [1], [2], "t"⟩)]⟩ : World Bytes)
        (some "bob") false true
      = (⟨([] : Bytes), [("alice", ⟨"alice", [1], [2], "t"⟩)]⟩ : World Bytes)) :=
  ⟨by decide,
    clearCryptoStore_spec (⟨([] : Bytes), [("alice", ⟨"alice", [1], [2], "t"⟩)]⟩ : World Bytes)
      (some "bob") "alice" false true (by decide) (Or.inl rfl)⟩

/-- C10 counterexample: `if (userId)` treats the empty-string id as falsy,
so `clearCryptoStore("")` clears ALL records — here it deletes the record of
a different user ("alice"), while the claim as stated would delete exactly
the (non-existent) record keyed `""` and leave alice's record in place. -/
theorem clearCryptoStore_empty_id_cex :
    (clearCryptoStore (⟨([] : Bytes), [("alice", ⟨"alice", [1], [2], "t"⟩)]⟩ : World Bytes)
        (some "") true true).db = [] ∧
    eraseA [(("alice" : String), (⟨"alice", [1], [2], "t"⟩ : EncryptedRecord))] ""
      = [("alice", ⟨"alice", [1], [2], "t"⟩)] ∧
    [(("alice" : String), (⟨"alice", [1], [2], "t"⟩ : EncryptedRecord))] ≠ [] := by
  refine ⟨rfl, by decide, by decide⟩

/-! ## Claims about the sender-key coordinator (spec-modelled `crypto.ts`) -/

/-- C1: after `ensureSenderKeyDistributed(c)` completes from a fresh session
with a local user id `U` known, the received-sender-key store holds exactly
one entry keyed by (c, own key's distributionId value), with
`fromUserId = U`, whose distributionId/chainKey/chainIndex are value-equal
to the own key's but whose distributionId and chainKey buffers are distinct
heap objects, so that mutating the own key's chainKey buffer leaves the
self-copy's chainKey unchanged. -/
theorem ensureSenderKeyDistributed_selfCopy (c U : String) (k : SenderKey)
    (distOk : Bool) :
    let res := ensureSenderKeyDistributed initialCryptoState c (some U) k distOk
    countEntriesKeyed res.2 (c, res.2.heap.read res.1.distributionId) = 1 ∧
    ∃ e, lookupA res.2.receivedSenderKeys (c, res.2.heap.read res.1.distributionId)
        = some e ∧
      e.fromUserId = U ∧
      res.2.heap.read e.key.distributionId = res.2.heap.read res.1.distributionId ∧
      res.2.heap.read e.key.chainKey = res.2.heap.read res.1.chainKey ∧
      e.key.chainIndex = res.1.chainIndex ∧
      e.key.distributionId ≠ res.1.distributionId ∧
      e.key.chainKey ≠ res.1.chainKey ∧
      ∀ b : Bytes, (res.2.heap.write res.1.chainKey b).read e.key.chainKey
        = res.2.heap.read e.key.chainKey := by
  cases distOk <;>
    exact ⟨by simp [ensureSenderKeyDistributed, initialCryptoState, addReceived,
        lookupA, countEntriesKeyed, Heap.read],
      ⟨U, ⟨2, 3, k.chainIndex⟩⟩,
      by simp [ensureSenderKeyDistributed, initialCryptoState, addReceived,
        lookupA, Heap.read],
      rfl,
      by simp [ensureSenderKeyDistributed, initialCryptoState, addReceived,
        lookupA, Heap.read],
      by simp [ensureSenderKeyDistributed, initialCryptoState, addReceived,
        lookupA, Heap.read],
      rfl,
      by simp [ensureSenderKeyDistributed, initialCryptoState, lookupA],
      by simp [ensureSenderKeyDistributed, initialCryptoState, lookupA],
      by intro b
         simp [ensureSenderKeyDistributed, initialCryptoState, addReceived,
           lookupA, Heap.read, Heap.write]⟩

/-- C9: when `ensureSenderKeyDistributed(c)` generates a key from a fresh
session while no local user id is known, the own key is still generated and
stored for the channel (with the generated field values), but no self-copy
entry is added: the received-sender-key store stays empty. -/
theorem ensureSenderKeyDistributed_no_user (c : String) (k : SenderKey)
    (distOk : Bool) :
    let res := ensureSenderKeyDistributed initialCryptoState c none k distOk
    lookupA res.2.mySenderKeys c = some res.1 ∧
    res.2.heap.read res.1.distributionId = k.distributionId ∧
    res.2.heap.read res.1.chainKey = k.chainKey ∧
    res.1.chainIndex = k.chainIndex ∧
    res.2.receivedSenderKeys.length = 0 := by
  cases distOk <;>
    exact ⟨by simp [ensureSenderKeyDistributed, initialCryptoState, lookupA,
        insertA],
      by simp [ensureSenderKeyDistributed, initialCryptoState, lookupA, Heap.read],
      by simp [ensureSenderKeyDistributed, initialCryptoState, lookupA, Heap.read],
      rfl,
      by simp [ensureSenderKeyDistributed, initialCryptoState, lookupA]⟩

/-- C5: two consecutive `ensureSenderKeyDistributed(c)` calls with no
intervening invalidate and with distribution succeeding return the very same
key (same reference, hence identical distributionId value) and the second
call changes nothing: no second key, no duplicate self-copy — exactly one
self-copy for the channel remains. -/
theorem ensureSenderKeyDistributed_idempotent (c U : String) (k1 k2 : SenderKey) :
    let r1 := ensureSenderKeyDistributed initialCryptoState c (some U) k1 true
    let r2 := ensureSenderKeyDistributed r1.2 c (some U) k2 true
    r2.1 = r1.1 ∧ r2.2 = r1.2 ∧
    r2.2.heap.read r2.1.distributionId = r1.2.heap.read r1.1.distributionId ∧
    countSelfCopies r2.2 c U = 1 := by
  refine ⟨?_, ?_, ?_, ?_⟩ <;>
    simp [ensureSenderKeyDistributed, initialCryptoState, addReceived, lookupA,
      insertA, countSelfCopies, Heap.read]

/-- C4: `invalidateSenderKey` never deletes received-sender-key entries, and
`invalidateSenderKey(c)` followed by `ensureSenderKeyDistributed(c)` (the
regenerated key carrying a fresh distributionId, per invariant I3) yields an
own key whose distributionId value differs from the pre-invalidation one
while the original self-copy entry remains: the user's self-copy count for
the channel becomes 2 — one stale, one current. -/
theorem invalidateSenderKey_regenerate_accumulates (c U : String)
    (k1 k2 : SenderKey) (hne : k2.distributionId ≠ k1.distributionId) :
    (∀ st ch, (invalidateSenderKey st ch).receivedSenderKeys
        = st.receivedSenderKeys) ∧
    (let r1 := ensureSenderKeyDistributed initialCryptoState c (some U) k1 true
     let r3 := ensureSenderKeyDistributed (invalidateSenderKey r1.2 c) c (some U)
        k2 true
     r1.2.heap.read r1.1.distributionId = k1.distributionId ∧
     r3.2.heap.read r3.1.distributionId = k2.distributionId ∧
     r3.2.heap.read r3.1.distributionId ≠ r1.2.heap.read r1.1.distributionId ∧
     countSelfCopies r3.2 c U = 2) := by
  have hne' : k1.distributionId ≠ k2.distributionId := fun h => hne h.symm
  refine ⟨fun st ch => rfl, ?_, ?_, ?_, ?_⟩ <;>
    simp [ensureSenderKeyDistributed, initialCryptoState, invalidateSenderKey,
      addReceived, lookupA, insertA, eraseA, countSelfCopies, Heap.read, hne, hne']

/-- Witness for C4 at concrete keys with distinct distribution ids. -/
theorem invalidateSenderKey_regenerate_accumulates_w :
    ((⟨[2], [9], 0⟩ : SenderKey).distributionId
        ≠ (⟨[1], [9], 0⟩ : SenderKey).distributionId) ∧
    ((∀ st ch, (invalidateSenderKey st ch).receivedSenderKeys
        = st.receivedSenderKeys) ∧
     (let r1 := ensureSenderKeyDistributed initialCryptoState "ch-1" (some "user-1")
        ⟨[1], [9], 0⟩ true
      let r3 := ensureSenderKeyDistributed (invalidateSenderKey r1.2 "ch-1") "ch-1"
        (some "user-1") ⟨[2], [9], 0⟩ true
      r1.2.heap.read r1.1.distributionId = (⟨[1], [9], 0⟩ : SenderKey).distributionId ∧
      r3.2.heap.read r3.1.distributionId = (⟨[2], [9], 0⟩ : SenderKey).distributionId ∧
      r3.2.heap.read r3.1.distributionId ≠ r1.2.heap.read r1.1.distributionId ∧
      countSelfCopies r3.2 "ch-1" "user-1" = 2)) :=
  ⟨by decide,
    invalidateSenderKey_regenerate_accumulates "ch-1" "user-1" ⟨[1], [9], 0⟩
      ⟨[2], [9], 0⟩ (by decide)⟩
